import Mathlib

/-!
Verification development for the EcoScan waste-classifier web app
(a React single-page app: view-state controller, camera glue, and a
single classification call to an external AI service).

The TypeScript source is embedded shallowly:
  - `AppState`, `WasteAnalysis` mirror `src/types.ts`;
  - `analyzeWaste` mirrors `src/services/geminiService.ts`, with the
    network outcome passed in as an explicit environment value;
  - the controller handlers (`startCamera`, `stopCamera`, `capturePhoto`,
    `handleFileUpload`, `processAnalysis`, `reset`) mirror the `App`
    component, with React `useState`/`useRef` cells gathered into an
    explicit `Controller` record;
  - browser builtins (`FileReader.readAsDataURL`, `canvas.toDataURL`,
    `JSON.parse`, `String.prototype.split`, base64) are modelled as
    executable Lean functions faithful to their documented behaviour.
-/

namespace EcoScan

/-- The character `"`; written via its code point. -/
def quoteChar : Char := Char.ofNat 34

/-- The backslash character, written via its code point. -/
def backslashChar : Char := Char.ofNat 92

/-- The opening curly brace character, written via its code point. -/
def lbraceChar : Char := Char.ofNat 123

/-- The closing curly brace character, written via its code point. -/
def rbraceChar : Char := Char.ofNat 125

/-- `AppState` from `src/types.ts`:
`'idle' | 'capturing' | 'analyzing' | 'result' | 'error'`. -/
inductive AppState where
  | idle
  | capturing
  | analyzing
  | result
  | error
deriving DecidableEq, Repr, BEq

/-- Modelled from the browser platform: a `MediaStream` as returned by
`navigator.mediaDevices.getUserMedia`.  `tracksLive` abstracts whether its
tracks are still running (`track.stop()` turns this off; stopping an
already-stopped track is a no-op). -/
structure MediaStream where
  id : Nat
  tracksLive : Bool
deriving DecidableEq, Repr

/-- Modelled from the browser platform: the `<video>` element behind
`videoRef`.  `srcObject` is the attached stream, `videoWidth`/`videoHeight`
the stream's native resolution (0 when no stream metadata is loaded), and
`currentFrame` is `some f` when the element has a current decoded frame
`f` that `drawImage` would paint (it is `none` when no stream is playing). -/
structure VideoElement where
  srcObject : Option MediaStream
  videoWidth : Nat
  videoHeight : Nat
  currentFrame : Option Nat
deriving DecidableEq, Repr

/-- Modelled from the browser platform: the bitmap drawn onto the hidden
canvas: which video frame was painted and at what size. -/
structure DrawnImage where
  frame : Nat
  w : Nat
  h : Nat
deriving DecidableEq, Repr

/-- Modelled from the browser platform: the hidden `<canvas>` element behind
`canvasRef`.  `ctx2d` records whether `getContext('2d')` succeeds. -/
structure Canvas where
  width : Nat
  height : Nat
  content : Option DrawnImage
  ctx2d : Bool
deriving DecidableEq, Repr

/-- The five-key confidence record of `WasteAnalysis` (`src/types.ts`),
in declaration order (glass, plastic, paper, cardboard, other); JS numbers
are modelled as rationals. -/
structure Confidences where
  glass : ℚ
  plastic : ℚ
  paper : ℚ
  cardboard : ℚ
  other : ℚ
deriving DecidableEq, Repr

/-- `WasteAnalysis` from `src/types.ts`. -/
structure WasteAnalysis where
  mainMaterial : String
  confidences : Confidences
  recyclingTip : String
  isRecyclable : Bool
deriving DecidableEq, Repr

/-- JSON values, as produced by the modelled `JSON.parse`.  Object fields
keep their textual order (JS objects preserve string-key insertion order). -/
inductive Json where
  | null
  | bool (b : Bool)
  | num (q : ℚ)
  | str (s : String)
  | arr (elems : List Json)
  | obj (fields : List (String × Json))

/-! ## Base64 (modelled from the platform's data-URL base64 encoding) -/

/-- The standard base64 alphabet, index 0 to 63. -/
def base64Table : List Char :=
  ['A', 'B', 'C', 'D', 'E', 'F', 'G', 'H', 'I', 'J', 'K', 'L', 'M',
   'N', 'O', 'P', 'Q', 'R', 'S', 'T', 'U', 'V', 'W', 'X', 'Y', 'Z',
   'a', 'b', 'c', 'd', 'e', 'f', 'g', 'h', 'i', 'j', 'k', 'l', 'm',
   'n', 'o', 'p', 'q', 'r', 's', 't', 'u', 'v', 'w', 'x', 'y', 'z',
   '0', '1', '2', '3', '4', '5', '6', '7', '8', '9', '+', '/']

/-- The base64 character for a 6-bit value. -/
def b64char (n : Nat) : Char := base64Table.getD n 'A'

/-- The 6-bit value of a base64 character (via table lookup). -/
def b64inv (c : Char) : Nat := base64Table.indexOf c

/-- Modelled from the platform: base64-encode a byte sequence
(bytes as `Nat` below 256), with `=` padding. -/
def base64Encode : List Nat → List Char
  | [] => []
  | [b0] => [b64char (b0 / 4), b64char (b0 % 4 * 16), '=', '=']
  | [b0, b1] =>
      [b64char (b0 / 4), b64char (b0 % 4 * 16 + b1 / 16),
       b64char (b1 % 16 * 4), '=']
  | b0 :: b1 :: b2 :: rest =>
      b64char (b0 / 4) :: b64char (b0 % 4 * 16 + b1 / 16) ::
      b64char (b1 % 16 * 4 + b2 / 64) :: b64char (b2 % 64) ::
      base64Encode rest

/-- Modelled from the platform: base64-decode four-character groups,
honouring `=` padding. -/
def base64Decode : List Char → List Nat
  | c0 :: c1 :: c2 :: c3 :: rest =>
      let n0 := b64inv c0
      let n1 := b64inv c1
      if c2 = '=' then [n0 * 4 + n1 / 16]
      else
        let n2 := b64inv c2
        if c3 = '=' then [n0 * 4 + n1 / 16, n1 % 16 * 16 + n2 / 4]
        else
          (n0 * 4 + n1 / 16) :: (n1 % 16 * 16 + n2 / 4) ::
          (n2 % 4 * 64 + b64inv c3) :: base64Decode rest
  | _ => []

/-! ## JS string split (modelled from `String.prototype.split` with a
one-character separator) -/

/-- Modelled from JS `String.prototype.split(sep)` for a single-character
separator: cut the character list at every occurrence of `sep`. -/
def jsSplit (sep : Char) : List Char → List (List Char)
  | [] => [[]]
  | c :: rest =>
      let r := jsSplit sep rest
      if c = sep then [] :: r
      else
        match r with
        | [] => [[c]]
        | g :: gs => (c :: g) :: gs

/-! ## JSON.parse (modelled from the JS builtin)

A fuel-based recursive-descent parser.  Unicode `\u` escapes and the
rejection of raw control characters inside strings are not modelled; the
grammar is otherwise that of JSON (null, booleans, numbers with optional
fraction and exponent and no leading zeros, strings with the common
escapes, arrays, objects). -/

/-- JSON insignificant whitespace. -/
def isJsonWs (c : Char) : Bool :=
  c = ' ' || c = Char.ofNat 9 || c = Char.ofNat 10 || c = Char.ofNat 13

/-- Drop leading JSON whitespace. -/
def skipWs : List Char → List Char
  | [] => []
  | c :: rest => if isJsonWs c then skipWs rest else c :: rest

/-- Take a maximal run of decimal digits, as digit values. -/
def takeDigits : List Char → List Nat × List Char
  | [] => ([], [])
  | c :: rest =>
      if c.isDigit then
        let (ds, r) := takeDigits rest
        ((c.toNat - 48) :: ds, r)
      else ([], c :: rest)

/-- Value of a digit-value list read left to right. -/
def digitsToNat (ds : List Nat) : Nat := ds.foldl (fun a d => a * 10 + d) 0

/-- Parse an optional JSON fraction part `.digits`, returned as a rational. -/
def parseFrac (cs : List Char) : Option (ℚ × List Char) :=
  match cs with
  | '.' :: r =>
      match takeDigits r with
      | ([], _) => none
      | (ds, r2) => some ((digitsToNat ds : ℚ) / (10 : ℚ) ^ ds.length, r2)
  | _ => some (0, cs)

/-- Parse an optional JSON exponent part, returned as the scale factor. -/
def parseExp (cs : List Char) : Option (ℚ × List Char) :=
  match cs with
  | c :: r =>
      if c = 'e' || c = 'E' then
        let (sign, r1) : Int × List Char :=
          match r with
          | '+' :: r2 => (1, r2)
          | '-' :: r2 => (-1, r2)
          | _ => (1, r)
        match takeDigits r1 with
        | ([], _) => none
        | (ds, r2) => some ((10 : ℚ) ^ (sign * (digitsToNat ds : Int)), r2)
      else some (1, cs)
  | [] => some (1, [])

/-- Parse a JSON number (optional minus, integer part without leading
zeros, optional fraction, optional exponent). -/
def parseNumber (cs : List Char) : Option (ℚ × List Char) :=
  let (neg, cs1) : Bool × List Char :=
    match cs with
    | '-' :: r => (true, r)
    | _ => (false, cs)
  match takeDigits cs1 with
  | ([], _) => none
  | (0 :: _ :: _, _) => none
  | (ids, cs2) =>
      match parseFrac cs2 with
      | none => none
      | some (f, cs3) =>
          match parseExp cs3 with
          | none => none
          | some (e, cs4) =>
              let mag : ℚ := ((digitsToNat ids : ℚ) + f) * e
              some (if neg then -mag else mag, cs4)

/-- Parse the characters of a JSON string after the opening quote, handling
the common escapes; returns the content and the input after the closing
quote. -/
def parseStringChars : List Char → Option (List Char × List Char)
  | [] => none
  | c :: rest =>
      if c = quoteChar then some ([], rest)
      else if c = backslashChar then
        match rest with
        | [] => none
        | e :: rest2 =>
            let esc : Option Char :=
              if e = quoteChar then some quoteChar
              else if e = backslashChar then some backslashChar
              else if e = '/' then some '/'
              else if e = 'n' then some (Char.ofNat 10)
              else if e = 't' then some (Char.ofNat 9)
              else if e = 'r' then some (Char.ofNat 13)
              else if e = 'b' then some (Char.ofNat 8)
              else if e = 'f' then some (Char.ofNat 12)
              else none
            match esc with
            | none => none
            | some ch =>
                match parseStringChars rest2 with
                | none => none
                | some (s, r) => some (ch :: s, r)
      else
        match parseStringChars rest with
        | none => none
        | some (s, r) => some (c :: s, r)

mutual

/-- Parse one JSON value (fuel-bounded). -/
def parseValue (fuel : Nat) (cs : List Char) : Option (Json × List Char) :=
  match fuel with
  | 0 => none
  | fuel + 1 =>
      match skipWs cs with
      | [] => none
      | c :: rest =>
          if c = quoteChar then
            match parseStringChars rest with
            | none => none
            | some (s, r) => some (.str (String.mk s), r)
          else if c = lbraceChar then parseObjectBody fuel rest
          else if c = '[' then parseArrayBody fuel rest
          else if c = 't' then
            match rest with
            | 'r' :: 'u' :: 'e' :: r => some (.bool true, r)
            | _ => none
          else if c = 'f' then
            match rest with
            | 'a' :: 'l' :: 's' :: 'e' :: r => some (.bool false, r)
            | _ => none
          else if c = 'n' then
            match rest with
            | 'u' :: 'l' :: 'l' :: r => some (.null, r)
            | _ => none
          else
            match parseNumber (c :: rest) with
            | none => none
            | some (q, r) => some (.num q, r)

/-- Parse what follows a `[`: either `]` or a comma-separated item list. -/
def parseArrayBody (fuel : Nat) (cs : List Char) : Option (Json × List Char) :=
  match fuel with
  | 0 => none
  | fuel + 1 =>
      match skipWs cs with
      | ']' :: r => some (.arr [], r)
      | cs1 =>
          match parseArrayItems fuel cs1 with
          | none => none
          | some (vs, r) => some (.arr vs, r)

/-- Parse one or more comma-separated array items up to the closing `]`. -/
def parseArrayItems (fuel : Nat) (cs : List Char) :
    Option (List Json × List Char) :=
  match fuel with
  | 0 => none
  | fuel + 1 =>
      match parseValue fuel cs with
      | none => none
      | some (v, r) =>
          match skipWs r with
          | ',' :: r2 =>
              match parseArrayItems fuel r2 with
              | none => none
              | some (vs, r3) => some (v :: vs, r3)
          | ']' :: r2 => some ([v], r2)
          | _ => none

/-- Parse what follows a `\x7b`: either `\x7d` or a comma-separated member
list. -/
def parseObjectBody (fuel : Nat) (cs : List Char) : Option (Json × List Char) :=
  match fuel with
  | 0 => none
  | fuel + 1 =>
      match skipWs cs with
      | [] => none
      | c :: r =>
          if c = rbraceChar then some (.obj [], r)
          else
            match parseObjectItems fuel (c :: r) with
            | none => none
            | some (kvs, r2) => some (.obj kvs, r2)

/-- Parse one or more `"key": value` members up to the closing brace. -/
def parseObjectItems (fuel : Nat) (cs : List Char) :
    Option (List (String × Json) × List Char) :=
  match fuel with
  | 0 => none
  | fuel + 1 =>
      match skipWs cs with
      | [] => none
      | c :: r =>
          if c = quoteChar then
            match parseStringChars r with
            | none => none
            | some (k, r1) =>
                match skipWs r1 with
                | ':' :: r2 =>
                    match parseValue fuel r2 with
                    | none => none
                    | some (v, r3) =>
                        match skipWs r3 with
                        | ',' :: r4 =>
                            match parseObjectItems fuel r4 with
                            | none => none
                            | some (kvs, r5) => some ((String.mk k, v) :: kvs, r5)
                        | c2 :: r4 =>
                            if c2 = rbraceChar then some ([(String.mk k, v)], r4)
                            else none
                        | _ => none
                | _ => none
          else none

end

/-- Modelled from the JS builtin `JSON.parse`: parse a complete JSON text
(one value plus surrounding whitespace); `none` models a thrown
`SyntaxError`. -/
def jsonParse (s : String) : Option Json :=
  match parseValue (4 * (s.length + 1)) s.toList with
  | none => none
  | some (j, rest) =>
      match skipWs rest with
      | [] => some j
      | _ => none

/-! ## Classification client (`src/services/geminiService.ts`) -/

/-- Modelled from the platform: a failure of the outbound
`ai.models.generateContent` call (network error, SDK error, …). -/
structure NetError where
  message : String
deriving DecidableEq, Repr

/-- Modelled from the `@google/genai` SDK: the response object, of which
`analyzeWaste` reads only the `text` property (`string | undefined`). -/
structure GenResponse where
  text : Option String
deriving DecidableEq, Repr

/-- The spec's `ClassificationError`: any rejection of `analyzeWaste`,
tagged by its point of origin. -/
inductive ClassificationError where
  | network (e : NetError)
  | noResponseText
  | parseFailure
deriving DecidableEq, Repr

/-- The `inlineData.data` field of the request `analyzeWaste` sends:
`base64Image.split(',')[1]` — the piece between the first and second
comma of the data URL (`none` models JS `undefined` when there is no
second piece). -/
def requestPayload (base64Image : String) : Option String :=
  ((jsSplit ',' base64Image.toList).get? 1).map String.mk

/-- `analyzeWaste` from `src/services/geminiService.ts`, with the network
call's outcome `net` passed as an environment value.  The code awaits the
call, reads `result.text`, throws when that is missing or empty
(`if (!text) throw ...`), and otherwise returns `JSON.parse(text)` cast —
unvalidated — to `WasteAnalysis`; every caught error is rethrown, so the
result is the parsed JSON value or an error. -/
def analyzeWaste (base64Image : String) (net : Except NetError GenResponse) :
    Except ClassificationError Json :=
  match net with
  | .error e => .error (.network e)
  | .ok resp =>
      match resp.text with
      | none => .error .noResponseText
      | some t =>
          if t = "" then .error .noResponseText
          else
            match jsonParse t with
            | none => .error .parseFailure
            | some j => .ok j

/-- Field lookup on a JSON object (JS property access). -/
def Json.lookup (j : Json) (key : String) : Option Json :=
  match j with
  | .obj fields => List.lookup key fields
  | _ => none

/-- Modelled from the declared response schema of
`src/services/geminiService.ts` and `WasteAnalysis` in `src/types.ts`:
decode a JSON value into the expected `WasteAnalysis` shape, `none` on any
mismatch.  The source requests this schema from the service but performs
no such validation itself; this definition is the spec-side comparison
point. -/
def wasteAnalysisOfJson (j : Json) : Option WasteAnalysis :=
  match j.lookup "mainMaterial", j.lookup "confidences",
        j.lookup "recyclingTip", j.lookup "isRecyclable" with
  | some (.str m), some conf, some (.str tip), some (.bool rec) =>
      match conf.lookup "glass", conf.lookup "plastic", conf.lookup "paper",
            conf.lookup "cardboard", conf.lookup "other" with
      | some (.num g), some (.num pl), some (.num pa),
        some (.num cb), some (.num ot) =>
          some ⟨m, ⟨g, pl, pa, cb, ot⟩, tip, rec⟩
      | _, _, _, _, _ => none
  | _, _, _, _ => none

/-! ## View-state controller (the `App` component, `src` part_000)

React's `useState` cells (`state`, `image`, `analysis`, `error`) and the
`useRef` cells for the video and canvas elements are gathered into one
record.  Because the source stores `JSON.parse`'s output in `analysis`
through an unchecked `as WasteAnalysis` cast, the `analysis` cell holds a
raw `Json` value. -/

/-- Modelled from the platform: a camera failure (`getUserMedia` rejects:
permission denied, or no camera device exists). -/
structure CameraError where
  message : String
deriving DecidableEq, Repr

/-- The controller's mutable cells: the four `useState` cells and the two
element refs (`fileInputRef` carries no state the handlers read). -/
structure Controller where
  state : AppState
  image : Option String
  analysis : Option Json
  error : Option String
  video : Option VideoElement
  canvas : Option Canvas

/-- The error message set by `startCamera`'s catch branch. -/
def cameraErrorMessage : String := "Unable to access camera. Please check permissions."

/-- The error message set by `processAnalysis`'s catch branch. -/
def analysisErrorMessage : String := "AI analysis failed. Please try a different photo."

/-- Whether a live media stream is attached to the viewfinder — the
capturing state's video-active substate. -/
def videoActive (c : Controller) : Bool :=
  match c.video with
  | some v =>
      match v.srcObject with
      | some s => s.tracksLive
      | none => false
  | none => false

/-- `startCamera` from the `App` component, with the `getUserMedia`
outcome `grant` passed as an environment value: set state to capturing,
await the camera; on grant attach the stream to the video element (when
the ref is populated); on rejection set the capture error message and the
error state. -/
def startCamera (grant : Except CameraError MediaStream) (c : Controller) :
    Controller :=
  let c1 := { c with state := .capturing }
  match grant with
  | .ok stream =>
      match c1.video with
      | some v => { c1 with video := some { v with srcObject := some stream } }
      | none => c1
  | .error _ => { c1 with error := some cameraErrorMessage, state := .error }

/-- The successive controller states a run of `startCamera` passes
through (one entry per state-changing step, the initial state excluded). -/
def startCameraTrace (grant : Except CameraError MediaStream) (c : Controller) :
    List Controller :=
  let c1 := { c with state := .capturing }
  match grant with
  | .ok stream =>
      match c1.video with
      | some v => [c1, { c1 with video := some { v with srcObject := some stream } }]
      | none => [c1]
  | .error _ =>
      [c1, { c1 with error := some cameraErrorMessage },
       { c1 with error := some cameraErrorMessage, state := .error }]

/-- `stopCamera` from the `App` component: if the video ref is populated
and a stream is attached, stop every track of that stream (the stream
stays attached, its tracks dead). -/
def stopCamera (c : Controller) : Controller :=
  match c.video with
  | some v =>
      match v.srcObject with
      | some stream =>
          { c with video := some { v with srcObject := some { stream with tracksLive := false } } }
      | none => c
  | none => c

/-- `processAnalysis` from the `App` component, with the network outcome
`net` passed through to `analyzeWaste`: enter analyzing, clear the error,
await the classification; on success store the analysis and enter result,
on a throw/reject set the analysis error message and enter error.  The
second component records the payloads handed to the classification
client. -/
def processAnalysis (net : Except NetError GenResponse) (base64 : String)
    (c : Controller) : Controller × List String :=
  let c1 := { c with state := .analyzing, error := none }
  match analyzeWaste base64 net with
  | .ok j => ({ c1 with analysis := some j, state := .result }, [base64])
  | .error _ =>
      ({ c1 with error := some analysisErrorMessage, state := .error }, [base64])

/-- The successive controller states a run of `processAnalysis` passes
through. -/
def processAnalysisTrace (net : Except NetError GenResponse) (base64 : String)
    (c : Controller) : List Controller :=
  let c1 := { c with state := .analyzing, error := none }
  match analyzeWaste base64 net with
  | .ok j =>
      [c1, { c1 with analysis := some j },
       { c1 with analysis := some j, state := .result }]
  | .error _ =>
      [c1, { c1 with error := some analysisErrorMessage },
       { c1 with error := some analysisErrorMessage, state := .error }]

/-- Modelled from the platform: what `drawImage(video, 0, 0, w, h)` leaves
on the canvas — the element's current frame at the given size when one
exists, the previous content otherwise (per the HTML spec, drawing a video
with no current frame paints nothing). -/
def drawVideoFrame (cv : Canvas) (v : VideoElement) (w h : Nat) : Canvas :=
  match v.currentFrame with
  | some f => { cv with content := some ⟨f, w, h⟩ }
  | none => cv

/-- Modelled from the platform: the bytes of the canvas's JPEG encoding at
quality `q`, abstracted as an injective encoding of the drawn content and
the quality. -/
def jpegBytes (cv : Canvas) (q : ℚ) : List Nat :=
  [cv.width, cv.height, q.num.natAbs, q.den] ++
  (match cv.content with
   | none => []
   | some d => [d.frame, d.w, d.h])

/-- Modelled from the platform: `canvas.toDataURL(mime, q)` — the string
`"data:,"` for a zero-pixel canvas, otherwise a base64 data URL of the
encoded bitmap (per the HTML spec). -/
def toDataURL (cv : Canvas) (mime : String) (q : ℚ) : String :=
  if cv.width = 0 || cv.height = 0 then "data:,"
  else
    String.mk ("data:".toList ++ mime.toList ++ ";base64,".toList ++
      base64Encode (jpegBytes cv q))

/-- `capturePhoto` from the `App` component: when both element refs are
populated, resize the canvas to the video's native resolution, and — when
a 2d context is available — draw the current frame, encode the canvas as a
JPEG data URL at quality 0.85, store it as the image, stop the camera and
run the analysis on it.  When either ref is `null` nothing happens.  The
second component records the payloads handed to the classification
client. -/
def capturePhoto (net : Except NetError GenResponse) (c : Controller) :
    Controller × List String :=
  match c.video, c.canvas with
  | some video, some canvas =>
      let vW := video.videoWidth
      let vH := video.videoHeight
      let canvas1 := { canvas with width := vW, height := vH }
      if canvas1.ctx2d then
        let canvas2 := drawVideoFrame canvas1 video vW vH
        let dataUrl := toDataURL canvas2 "image/jpeg" (85 / 100)
        let c1 := { c with canvas := some canvas2, image := some dataUrl }
        let c2 := stopCamera c1
        processAnalysis net dataUrl c2
      else ({ c with canvas := some canvas1 }, [])
  | _, _ => (c, [])

/-- Modelled from the platform: a user-selected file — its MIME type and
raw bytes. -/
structure File where
  mime : String
  bytes : List Nat
deriving DecidableEq, Repr

/-- Modelled from the platform: `FileReader.readAsDataURL` on a successful
read produces `"data:<mime>;base64,"` followed by the base64 encoding of
the file's bytes. -/
def readAsDataURL (f : File) : String :=
  String.mk ("data:".toList ++ f.mime.toList ++ ";base64,".toList ++
    base64Encode f.bytes)

/-- `handleFileUpload` from the `App` component, the change event's file
list passed explicitly (`e.target.files?.[0]`; an absent or empty list
both yield no file): read the selected file as a data URL, store it as the
image and run the analysis on it.  The second component records the
payloads handed to the classification client. -/
def handleFileUpload (net : Except NetError GenResponse) (files : List File)
    (c : Controller) : Controller × List String :=
  match files.head? with
  | none => (c, [])
  | some f =>
      let dataUrl := readAsDataURL f
      let c1 := { c with image := some dataUrl }
      processAnalysis net dataUrl c1

/-- The successive controller states a run of `handleFileUpload` passes
through (empty when no file is selected). -/
def handleFileUploadTrace (net : Except NetError GenResponse)
    (files : List File) (c : Controller) : List Controller :=
  match files.head? with
  | none => []
  | some f =>
      let dataUrl := readAsDataURL f
      let c1 := { c with image := some dataUrl }
      c1 :: processAnalysisTrace net dataUrl c1

/-- `reset` from the `App` component: stop the camera, clear image,
analysis and error, return to idle. -/
def reset (c : Controller) : Controller :=
  let c1 := stopCamera c
  { c1 with image := none, analysis := none, error := none, state := .idle }

/-! ## Result-card rendering (the `state === 'result'` block of `App`) -/

/-- Modelled from JS `String.prototype.toLowerCase` (ASCII range). -/
def jsToLower (s : String) : String := String.mk (s.toList.map Char.toLower)

/-- Modelled from JS `Math.round`: round half toward positive infinity. -/
def jsRound (q : ℚ) : Int := (q + 1 / 2).floor

/-- `Object.entries(analysis.confidences)`: the five confidence entries in
key insertion order. -/
def confidenceEntries (c : Confidences) : List (String × ℚ) :=
  [("glass", c.glass), ("plastic", c.plastic), ("paper", c.paper),
   ("cardboard", c.cardboard), ("other", c.other)]

/-- One rendered confidence bar: its label, the percentage shown
(`Math.round(value)`), whether it gets the highlighted emerald styling
(`key.toLowerCase() === analysis.mainMaterial.toLowerCase()`), and the
bar's width percentage. -/
structure BarRender where
  label : String
  shownPct : Int
  highlighted : Bool
  widthPct : ℚ
deriving DecidableEq, Repr

/-- The result card's data as rendered by `App` in the result state: the
primary-detection heading (`analysis.mainMaterial`) and the confidence
bars in entry order. -/
def renderResultCard (a : WasteAnalysis) : String × List BarRender :=
  (a.mainMaterial,
   (confidenceEntries a.confidences).map fun kv =>
     { label := kv.1
       shownPct := jsRound kv.2
       highlighted := jsToLower kv.1 == jsToLower a.mainMaterial
       widthPct := kv.2 })

/-! ## Helper lemmas -/

/-- `jsRound` is rounding half toward positive infinity. -/
theorem jsRound_def (q : ℚ) : jsRound q = ⌊q + 1 / 2⌋ := rfl

/-- Base64 output characters avoid any character outside the alphabet
(plus the padding default `A`). -/
theorem b64char_ne (n : Nat) (c : Char) (hA : c ≠ 'A') (hmem : c ∉ base64Table) :
    b64char n ≠ c := by
  unfold b64char
  rcases h : base64Table[n]? with _ | d
  · simp only [List.getD_eq_getElem?_getD, h, Option.getD_none]
    exact fun hc => hA hc.symm
  · have hd : d ∈ base64Table := List.getElem?_mem h
    simp only [List.getD_eq_getElem?_getD, h, Option.getD_some]
    exact fun hc => hmem (hc ▸ hd)

/-- The comma never occurs in base64 output. -/
theorem base64Encode_no_comma (bs : List Nat) : ',' ∉ base64Encode bs := by
  induction bs using base64Encode.induct with
  | case1 => simp [base64Encode]
  | case2 b0 =>
      simp only [base64Encode, List.mem_cons, List.not_mem_nil, or_false]
      rintro (h | h | h | h) <;>
        first
          | exact b64char_ne _ ',' (by decide) (by decide) h.symm
          | exact absurd h (by decide)
  | case3 b0 b1 =>
      simp only [base64Encode, List.mem_cons, List.not_mem_nil, or_false]
      rintro (h | h | h | h) <;>
        first
          | exact b64char_ne _ ',' (by decide) (by decide) h.symm
          | exact absurd h (by decide)
  | case4 b0 b1 b2 rest ih =>
      simp only [base64Encode, List.mem_cons]
      rintro (h | h | h | h | h) <;>
        first
          | exact b64char_ne _ ',' (by decide) (by decide) h.symm
          | exact ih h

/-- Decoding a base64 character produced from a 6-bit value recovers it. -/
theorem b64inv_b64char : ∀ n, n < 64 → b64inv (b64char n) = n := by decide

/-- Base64 decoding inverts base64 encoding on byte sequences. -/
theorem base64_roundtrip (bs : List Nat) (h : ∀ b ∈ bs, b < 256) :
    base64Decode (base64Encode bs) = bs := by
  induction bs using base64Encode.induct with
  | case1 => rfl
  | case2 b0 =>
      have h0 : b0 < 256 := h b0 (by simp)
      have e1 := b64inv_b64char (b0 / 4) (by omega)
      have e2 := b64inv_b64char (b0 % 4 * 16) (by omega)
      simp [base64Encode, base64Decode, e1, e2]
      omega
  | case3 b0 b1 =>
      have h0 : b0 < 256 := h b0 (by simp)
      have h1 : b1 < 256 := h b1 (by simp)
      have e1 := b64inv_b64char (b0 / 4) (by omega)
      have e2 := b64inv_b64char (b0 % 4 * 16 + b1 / 16) (by omega)
      have e3 := b64inv_b64char (b1 % 16 * 4) (by omega)
      have ne1 : b64char (b1 % 16 * 4) ≠ '=' :=
        b64char_ne _ '=' (by decide) (by decide)
      simp [base64Encode, base64Decode, e1, e2, e3, ne1]
      omega
  | case4 b0 b1 b2 rest ih =>
      have h0 : b0 < 256 := h b0 (by simp)
      have h1 : b1 < 256 := h b1 (by simp)
      have h2 : b2 < 256 := h b2 (by simp)
      have e1 := b64inv_b64char (b0 / 4) (by omega)
      have e2 := b64inv_b64char (b0 % 4 * 16 + b1 / 16) (by omega)
      have e3 := b64inv_b64char (b1 % 16 * 4 + b2 / 64) (by omega)
      have e4 := b64inv_b64char (b2 % 64) (by omega)
      have ne1 : b64char (b1 % 16 * 4 + b2 / 64) ≠ '=' :=
        b64char_ne _ '=' (by decide) (by decide)
      have ne2 : b64char (b2 % 64) ≠ '=' :=
        b64char_ne _ '=' (by decide) (by decide)
      have ihh := ih (fun b hb => h b (by simp [hb]))
      simp [base64Encode, base64Decode, e1, e2, e3, e4, ne1, ne2, ihh]
      omega

/-- Splitting a list free of the separator yields the single piece. -/
theorem jsSplit_of_not_mem (sep : Char) (l : List Char) (h : sep ∉ l) :
    jsSplit sep l = [l] := by
  induction l with
  | nil => rfl
  | cons c rest ih =>
      have hc : ¬c = sep := fun hc => h (hc ▸ List.mem_cons_self c rest)
      have hr : sep ∉ rest := fun hm => h (List.mem_cons_of_mem c hm)
      simp [jsSplit, hc, ih hr]

/-- Splitting around a single separator occurrence cuts off the first
piece. -/
theorem jsSplit_append (sep : Char) (a b : List Char) (ha : sep ∉ a) :
    jsSplit sep (a ++ sep :: b) = a :: jsSplit sep b := by
  induction a with
  | nil => simp [jsSplit]
  | cons c a' ih =>
      have hc : ¬c = sep := fun hc => ha (hc ▸ List.mem_cons_self c a')
      have ha' : sep ∉ a' := fun hm => ha (List.mem_cons_of_mem c hm)
      simp [jsSplit, hc, ih ha']

/-- The payload `analyzeWaste` forwards out of a data URL produced by
`readAsDataURL` is exactly the base64 body. -/
theorem requestPayload_readAsDataURL (f : File) (hm : ',' ∉ f.mime.toList) :
    requestPayload (readAsDataURL f) = some (String.mk (base64Encode f.bytes)) := by
  unfold requestPayload readAsDataURL
  have hsplit : ("data:".toList ++ f.mime.toList ++ ";base64,".toList ++
      base64Encode f.bytes) =
      ("data:".toList ++ f.mime.toList ++ ";base64".toList) ++
        ',' :: base64Encode f.bytes := by
    simp [show ";base64,".toList = ";base64".toList ++ [','] from rfl]
  have hpre : ',' ∉ "data:".toList ++ f.mime.toList ++ ";base64".toList := by
    simp only [List.mem_append]
    rintro ((h | h) | h)
    · exact absurd h (by decide)
    · exact hm h
    · exact absurd h (by decide)
  rw [show (String.mk ("data:".toList ++ f.mime.toList ++ ";base64,".toList ++
        base64Encode f.bytes)).toList =
        "data:".toList ++ f.mime.toList ++ ";base64,".toList ++
          base64Encode f.bytes from rfl,
    hsplit, jsSplit_append _ _ _ hpre,
    jsSplit_of_not_mem _ _ (base64Encode_no_comma f.bytes)]
  rfl

/-- `stopCamera` leaves the app state untouched. -/
theorem stopCamera_state (c : Controller) : (stopCamera c).state = c.state := by
  rcases c with ⟨st, im, an, er, vid, cv⟩
  rcases vid with _ | ⟨so, w, hh, fr⟩
  · rfl
  · rcases so with _ | s <;> rfl

/-- `stopCamera` leaves the stored image untouched. -/
theorem stopCamera_image (c : Controller) : (stopCamera c).image = c.image := by
  rcases c with ⟨st, im, an, er, vid, cv⟩
  rcases vid with _ | ⟨so, w, hh, fr⟩
  · rfl
  · rcases so with _ | s <;> rfl

/-- `stopCamera` leaves the stored analysis untouched. -/
theorem stopCamera_analysis (c : Controller) :
    (stopCamera c).analysis = c.analysis := by
  rcases c with ⟨st, im, an, er, vid, cv⟩
  rcases vid with _ | ⟨so, w, hh, fr⟩
  · rfl
  · rcases so with _ | s <;> rfl

/-- `stopCamera` leaves the stored error untouched. -/
theorem stopCamera_error (c : Controller) : (stopCamera c).error = c.error := by
  rcases c with ⟨st, im, an, er, vid, cv⟩
  rcases vid with _ | ⟨so, w, hh, fr⟩
  · rfl
  · rcases so with _ | s <;> rfl

/-- `stopCamera` leaves the canvas untouched. -/
theorem stopCamera_canvas (c : Controller) : (stopCamera c).canvas = c.canvas := by
  rcases c with ⟨st, im, an, er, vid, cv⟩
  rcases vid with _ | ⟨so, w, hh, fr⟩
  · rfl
  · rcases so with _ | s <;> rfl

/-- After `stopCamera`, no live stream is attached to the viewfinder. -/
theorem stopCamera_videoActive (c : Controller) :
    videoActive (stopCamera c) = false := by
  rcases c with ⟨st, im, an, er, vid, cv⟩
  rcases vid with _ | ⟨so, w, hh, fr⟩
  · rfl
  · rcases so with _ | s <;> rfl

/-- `processAnalysis` never touches the stored image. -/
theorem processAnalysis_fst_image (net : Except NetError GenResponse)
    (b : String) (c : Controller) :
    (processAnalysis net b c).1.image = c.image := by
  rcases hh : analyzeWaste b net with err | j <;> simp [processAnalysis, hh]

/-- `processAnalysis` never touches the video element. -/
theorem processAnalysis_fst_video (net : Except NetError GenResponse)
    (b : String) (c : Controller) :
    (processAnalysis net b c).1.video = c.video := by
  rcases hh : analyzeWaste b net with err | j <;> simp [processAnalysis, hh]

/-- `processAnalysis` never touches the canvas. -/
theorem processAnalysis_fst_canvas (net : Except NetError GenResponse)
    (b : String) (c : Controller) :
    (processAnalysis net b c).1.canvas = c.canvas := by
  rcases hh : analyzeWaste b net with err | j <;> simp [processAnalysis, hh]

/-- `processAnalysis` hands exactly its payload to the classification
client, once. -/
theorem processAnalysis_snd (net : Except NetError GenResponse)
    (b : String) (c : Controller) :
    (processAnalysis net b c).2 = [b] := by
  rcases hh : analyzeWaste b net with err | j <;> simp [processAnalysis, hh]

/-- `processAnalysis` does not change whether a live stream is attached. -/
theorem videoActive_processAnalysis (net : Except NetError GenResponse)
    (b : String) (c : Controller) :
    videoActive (processAnalysis net b c).1 = videoActive c := by
  unfold videoActive
  rw [processAnalysis_fst_video]

/-! ## The claims -/

/-- C1: for every run of `startCamera` in which the camera permission
request is denied or no camera exists (`getUserMedia` rejects), the
controller ends in the error state with the capture error message set
(non-empty), and — the viewfinder starting without a live stream — no
state of the run ever has a live stream attached (the capturing state's
video-active substate is never reached). -/
theorem c1_startCamera_denied (c : Controller) (e : CameraError)
    (h : videoActive c = false) :
    (startCamera (.error e) c).state = .error ∧
    (startCamera (.error e) c).error = some cameraErrorMessage ∧
    cameraErrorMessage ≠ "" ∧
    (c :: startCameraTrace (.error e) c).map videoActive =
      [false, false, false, false] := by
  have h1 : videoActive { c with state := AppState.capturing } = false := h
  have h2 : videoActive { c with state := AppState.capturing, error := some cameraErrorMessage } = false := h
  have h3 : videoActive { c with state := AppState.error, error := some cameraErrorMessage } = false := h
  exact ⟨rfl, rfl, by decide, by simp [startCameraTrace, h, h1, h2, h3]⟩

/-- Witness for C1 at a concrete idle controller and a denial. -/
theorem c1_startCamera_denied_witness :
    videoActive ⟨.idle, none, none, none, none, none⟩ = false ∧
    ((startCamera (.error ⟨"denied"⟩)
        ⟨.idle, none, none, none, none, none⟩).state = .error ∧
      (startCamera (.error ⟨"denied"⟩)
        ⟨.idle, none, none, none, none, none⟩).error =
          some cameraErrorMessage ∧
      cameraErrorMessage ≠ "" ∧
      ((⟨.idle, none, none, none, none, none⟩ :: startCameraTrace
          (.error ⟨"denied"⟩) ⟨.idle, none, none, none, none, none⟩).map
        videoActive) = [false, false, false, false]) :=
  ⟨rfl, c1_startCamera_denied ⟨.idle, none, none, none, none, none⟩ ⟨"denied"⟩ rfl⟩

/-- C2 counterexample: a service payload that is valid JSON but does not
match the `WasteAnalysis` schema (the empty object) makes `analyzeWaste`
succeed — the code performs no schema validation (`JSON.parse` plus an
unchecked cast) — contradicting the claim that such a payload fails with a
`ClassificationError`. -/
theorem c2_schema_counterexample :
    analyzeWaste "img" (.ok ⟨some "\x7b\x7d"⟩) = .ok (Json.obj []) ∧
    wasteAnalysisOfJson (Json.obj []) = none :=
  ⟨rfl, rfl⟩

/-- C2 amended: `analyzeWaste` fails exactly when the network call fails,
or the service returns no usable payload (missing or empty `text`), or the
payload is not parseable as JSON; in every other case it returns the
parsed JSON value as-is — schema conformance is not validated. -/
theorem c2_amended (img : String) (net : Except NetError GenResponse) :
    ((∃ err, analyzeWaste img net = .error err) ↔
      (∃ e, net = .error e) ∨
      (∃ r, net = .ok r ∧ (r.text = none ∨ r.text = some "")) ∨
      (∃ r t, net = .ok r ∧ r.text = some t ∧ t ≠ "" ∧ jsonParse t = none)) ∧
    (∀ r t j, net = .ok r → r.text = some t → t ≠ "" → jsonParse t = some j →
      analyzeWaste img net = .ok j) := by
  cases net with
  | error e =>
      refine ⟨⟨fun _ => Or.inl ⟨e, rfl⟩, fun _ => ⟨.network e, rfl⟩⟩, ?_⟩
      intro r t j hok
      exact absurd hok (by simp)
  | ok r =>
      rcases hr : r.text with _ | t
      · refine ⟨⟨fun _ => Or.inr (Or.inl ⟨r, rfl, Or.inl hr⟩),
          fun _ => ⟨.noResponseText, by simp [analyzeWaste, hr]⟩⟩, ?_⟩
        intro r' t j hok ht
        injection hok with hh
        subst hh
        rw [hr] at ht
        exact absurd ht (by simp)
      · by_cases ht0 : t = ""
        · subst ht0
          refine ⟨⟨fun _ => Or.inr (Or.inl ⟨r, rfl, Or.inr hr⟩),
            fun _ => ⟨.noResponseText, by simp [analyzeWaste, hr]⟩⟩, ?_⟩
          intro r' t' j hok ht' hne _
          injection hok with hh
          subst hh
          rw [hr] at ht'
          injection ht' with hh2
          exact absurd hh2.symm hne
        · rcases hj : jsonParse t with _ | j
          · refine ⟨⟨fun _ => Or.inr (Or.inr ⟨r, t, rfl, hr, ht0, hj⟩),
              fun _ => ⟨.parseFailure, by simp [analyzeWaste, hr, ht0, hj]⟩⟩, ?_⟩
            intro r' t' j hok ht' hne hpj
            injection hok with hh
            subst hh
            rw [hr] at ht'
            injection ht' with hh2
            subst hh2
            rw [hj] at hpj
            exact absurd hpj (by simp)
          · have hsucc : analyzeWaste img (.ok r) = .ok j := by
              simp [analyzeWaste, hr, ht0, hj]
            refine ⟨⟨?_, ?_⟩, ?_⟩
            · rintro ⟨err, herr⟩
              rw [hsucc] at herr
              exact absurd herr (by simp)
            · rintro (⟨e, he⟩ | ⟨r', hr', hcase⟩ | ⟨r', t', hr', ht', hne, hpj⟩)
              · exact absurd he (by simp)
              · injection hr' with hh
                subst hh
                rcases hcase with hc | hc <;> rw [hr] at hc
                · exact absurd hc (by simp)
                · injection hc with hh2
                  exact absurd hh2 ht0
              · injection hr' with hh
                subst hh
                rw [hr] at ht'
                injection ht' with hh2
                subst hh2
                rw [hj] at hpj
                exact absurd hpj (by simp)
            · intro r' t' j' hok' ht' hne hpj
              injection hok' with hh
              subst hh
              rw [hr] at ht'
              injection ht' with hh2
              subst hh2
              rw [hj] at hpj
              injection hpj with hh3
              subst hh3
              exact hsucc

/-- Witness for C2 amended at a concrete successful response. -/
theorem c2_amended_witness :
    analyzeWaste "x" (.ok ⟨some "null"⟩) = .ok Json.null :=
  (c2_amended "x" (.ok ⟨some "null"⟩)).2 ⟨some "null"⟩ "null" Json.null rfl rfl
    (by decide) rfl

/-- C3: from a result or error state (whatever is held in image, analysis
and error), `reset` sets image, analysis and error to null and the state
to exactly idle. -/
theorem c3_reset_clears (c : Controller)
    (h : c.state = .result ∨ c.state = .error) :
    (reset c).image = none ∧ (reset c).analysis = none ∧
    (reset c).error = none ∧ (reset c).state = .idle :=
  ⟨rfl, rfl, rfl, rfl⟩

/-- Witness for C3 at a concrete result-state controller holding values in
all cells. -/
theorem c3_reset_clears_witness :
    (reset ⟨.result, some "img", some Json.null, some "old", none, none⟩).image =
      none ∧
    (reset ⟨.result, some "img", some Json.null, some "old", none,
      none⟩).analysis = none ∧
    (reset ⟨.result, some "img", some Json.null, some "old", none,
      none⟩).error = none ∧
    (reset ⟨.result, some "img", some Json.null, some "old", none,
      none⟩).state = .idle :=
  c3_reset_clears ⟨.result, some "img", some Json.null, some "old", none, none⟩
    (Or.inl rfl)

/-- C4: whenever the classification call throws or rejects, the controller
(which `processAnalysis` put in the analyzing state) transitions to the
error state and the stored error message is a non-empty string. -/
theorem c4_classification_failure (c : Controller) (img : String)
    (net : Except NetError GenResponse)
    (h : ∃ err, analyzeWaste img net = .error err) :
    (processAnalysis net img c).1.state = .error ∧
    ∃ m, (processAnalysis net img c).1.error = some m ∧ m ≠ "" := by
  obtain ⟨err, herr⟩ := h
  exact ⟨by simp [processAnalysis, herr], analysisErrorMessage,
    by simp [processAnalysis, herr], by decide⟩

/-- Witness for C4 at a concrete rejected network call. -/
theorem c4_classification_failure_witness :
    (processAnalysis (.error ⟨"boom"⟩) "x"
      ⟨.idle, none, none, none, none, none⟩).1.state = .error ∧
    ∃ m, (processAnalysis (.error ⟨"boom"⟩) "x"
      ⟨.idle, none, none, none, none, none⟩).1.error = some m ∧ m ≠ "" :=
  c4_classification_failure ⟨.idle, none, none, none, none, none⟩ "x"
    (.error ⟨"boom"⟩) ⟨.network ⟨"boom"⟩, rfl⟩

/-- C5 counterexample: with a video element present but no active frame
(no stream: `currentFrame` is `none`, zero native resolution), the claim
says `capturePhoto` is a silent no-op; the code instead stores a blank
image (`"data:,"`), hands it to the classification client, and moves the
controller on. -/
theorem c5_noop_counterexample :
    (⟨.capturing, none, none, none, some ⟨none, 0, 0, none⟩,
        some ⟨300, 150, none, true⟩⟩ : Controller).video =
      some ⟨none, 0, 0, none⟩ ∧
    (⟨none, 0, 0, none⟩ : VideoElement).currentFrame = none ∧
    (capturePhoto (.error ⟨"net"⟩)
      ⟨.capturing, none, none, none, some ⟨none, 0, 0, none⟩,
        some ⟨300, 150, none, true⟩⟩).1.image = some "data:," ∧
    (⟨.capturing, none, none, none, some ⟨none, 0, 0, none⟩,
        some ⟨300, 150, none, true⟩⟩ : Controller).image = none ∧
    (capturePhoto (.error ⟨"net"⟩)
      ⟨.capturing, none, none, none, some ⟨none, 0, 0, none⟩,
        some ⟨300, 150, none, true⟩⟩).2 = ["data:,"] ∧
    (capturePhoto (.error ⟨"net"⟩)
      ⟨.capturing, none, none, none, some ⟨none, 0, 0, none⟩,
        some ⟨300, 150, none, true⟩⟩).1.state = .error :=
  ⟨rfl, rfl, rfl, rfl, rfl, rfl⟩

/-- C5 amended: when the video element, canvas and 2d context are all
available and an active frame exists, `capturePhoto` draws the current
frame into the canvas sized to the video's native resolution, encodes it
as a JPEG data URL at quality 0.85, stores it, stops the camera and hands
it to the classification client; it is a silent no-op exactly when the
video element or the canvas element is missing (frame availability is not
checked). -/
theorem c5_capture_amended (net : Except NetError GenResponse)
    (c : Controller) (video : VideoElement) (canvas : Canvas) (fr : Nat)
    (hv : c.video = some video) (hc : c.canvas = some canvas)
    (hctx : canvas.ctx2d = true) (hf : video.currentFrame = some fr) :
    (capturePhoto net c).1.image =
      some (toDataURL ⟨video.videoWidth, video.videoHeight,
        some ⟨fr, video.videoWidth, video.videoHeight⟩, true⟩
        "image/jpeg" (85 / 100)) ∧
    (capturePhoto net c).1.canvas =
      some ⟨video.videoWidth, video.videoHeight,
        some ⟨fr, video.videoWidth, video.videoHeight⟩, true⟩ ∧
    (capturePhoto net c).2 =
      [toDataURL ⟨video.videoWidth, video.videoHeight,
        some ⟨fr, video.videoWidth, video.videoHeight⟩, true⟩
        "image/jpeg" (85 / 100)] ∧
    videoActive (capturePhoto net c).1 = false ∧
    (∀ c2 : Controller, c2.video = none ∨ c2.canvas = none →
      capturePhoto net c2 = (c2, [])) := by
  refine ⟨?_, ?_, ?_, ?_, ?_⟩
  · simp [capturePhoto, hv, hc, hctx, drawVideoFrame, hf,
      processAnalysis_fst_image, stopCamera_image]
  · simp [capturePhoto, hv, hc, hctx, drawVideoFrame, hf,
      processAnalysis_fst_canvas, stopCamera_canvas]
  · simp [capturePhoto, hv, hc, hctx, drawVideoFrame, hf, processAnalysis_snd]
  · simp [capturePhoto, hv, hc, hctx, drawVideoFrame, hf,
      videoActive_processAnalysis, stopCamera_videoActive]
  · intro c2 h2
    rcases hv2 : c2.video with _ | v2
    · simp [capturePhoto, hv2]
    · rcases h2 with h2 | h2
      · exact absurd (hv2 ▸ h2) (by simp)
      · simp [capturePhoto, hv2, h2]

/-- Witness for C5 amended at a concrete capture with a live frame. -/
theorem c5_capture_amended_witness :
    (capturePhoto (.error ⟨"down"⟩)
      ⟨.capturing, none, none, none, some ⟨some ⟨5, true⟩, 1280, 720, some 7⟩,
        some ⟨300, 150, none, true⟩⟩).1.image =
      some (toDataURL ⟨1280, 720, some ⟨7, 1280, 720⟩, true⟩
        "image/jpeg" (85 / 100)) ∧
    (capturePhoto (.error ⟨"down"⟩)
      ⟨.capturing, none, none, none, some ⟨some ⟨5, true⟩, 1280, 720, some 7⟩,
        some ⟨300, 150, none, true⟩⟩).2 =
      [toDataURL ⟨1280, 720, some ⟨7, 1280, 720⟩, true⟩
        "image/jpeg" (85 / 100)] ∧
    videoActive (capturePhoto (.error ⟨"down"⟩)
      ⟨.capturing, none, none, none, some ⟨some ⟨5, true⟩, 1280, 720, some 7⟩,
        some ⟨300, 150, none, true⟩⟩).1 = false := by
  have h := c5_capture_amended (.error ⟨"down"⟩)
    ⟨.capturing, none, none, none, some ⟨some ⟨5, true⟩, 1280, 720, some 7⟩,
      some ⟨300, 150, none, true⟩⟩
    ⟨some ⟨5, true⟩, 1280, 720, some 7⟩ ⟨300, 150, none, true⟩ 7 rfl rfl rfl rfl
  exact ⟨h.1, h.2.2.1, h.2.2.2.1⟩

/-- C6: a file upload from idle moves the controller to analyzing without
ever entering capturing, and the payload handed to the classification
client is exactly the base64 body of the file's data URL — byte-identical
to the file's contents modulo the base64 transform (which decodes back to
the original bytes). -/
theorem c6_upload_roundtrip (f : File) (c : Controller)
    (net : Except NetError GenResponse) (hstate : c.state = .idle)
    (hm : ',' ∉ f.mime.toList) (hbytes : ∀ b ∈ f.bytes, b < 256) :
    AppState.capturing ∉ (c :: handleFileUploadTrace net [f] c).map
      Controller.state ∧
    AppState.analyzing ∈ (handleFileUploadTrace net [f] c).map
      Controller.state ∧
    (handleFileUpload net [f] c).2 = [readAsDataURL f] ∧
    requestPayload (readAsDataURL f) =
      some (String.mk (base64Encode f.bytes)) ∧
    base64Decode (base64Encode f.bytes) = f.bytes := by
  refine ⟨?_, ?_, ?_, requestPayload_readAsDataURL f hm,
    base64_roundtrip f.bytes hbytes⟩
  · rcases hh : analyzeWaste (readAsDataURL f) net with err | j <;>
      simp [handleFileUploadTrace, processAnalysisTrace, hh, hstate]
  · rcases hh : analyzeWaste (readAsDataURL f) net with err | j <;>
      simp [handleFileUploadTrace, processAnalysisTrace, hh]
  · rcases hh : analyzeWaste (readAsDataURL f) net with err | j <;>
      simp [handleFileUpload, processAnalysis, hh]

/-- Witness for C6 at a concrete three-byte image file uploaded from
idle. -/
theorem c6_upload_roundtrip_witness :
    AppState.capturing ∉ ((⟨.idle, none, none, none, none, none⟩ : Controller)
      :: handleFileUploadTrace (.ok ⟨some "null"⟩) [⟨"image/png", [77, 200, 0]⟩]
        ⟨.idle, none, none, none, none, none⟩).map Controller.state ∧
    AppState.analyzing ∈ (handleFileUploadTrace (.ok ⟨some "null"⟩)
      [⟨"image/png", [77, 200, 0]⟩]
      ⟨.idle, none, none, none, none, none⟩).map Controller.state ∧
    (handleFileUpload (.ok ⟨some "null"⟩) [⟨"image/png", [77, 200, 0]⟩]
      ⟨.idle, none, none, none, none, none⟩).2 =
      [readAsDataURL ⟨"image/png", [77, 200, 0]⟩] ∧
    requestPayload (readAsDataURL ⟨"image/png", [77, 200, 0]⟩) =
      some (String.mk (base64Encode [77, 200, 0])) ∧
    base64Decode (base64Encode [77, 200, 0]) = [77, 200, 0] :=
  c6_upload_roundtrip ⟨"image/png", [77, 200, 0]⟩
    ⟨.idle, none, none, none, none, none⟩ (.ok ⟨some "null"⟩) rfl
    (by decide) (by decide)

/-- C7: `stopCamera` with no active stream is a no-op (it raises nothing
and changes nothing), and in general it is idempotent and never touches
the app state, the stored image, analysis or error. -/
theorem c7_stopCamera_idempotent (c c2 : Controller)
    (h : videoActive c = false) :
    stopCamera c = c ∧
    stopCamera (stopCamera c2) = stopCamera c2 ∧
    (stopCamera c2).state = c2.state ∧ (stopCamera c2).image = c2.image ∧
    (stopCamera c2).analysis = c2.analysis ∧
    (stopCamera c2).error = c2.error := by
  refine ⟨?_, ?_, stopCamera_state c2, stopCamera_image c2,
    stopCamera_analysis c2, stopCamera_error c2⟩
  · rcases c with ⟨st, im, an, er, vid, cv⟩
    rcases vid with _ | ⟨so, w, hh, fr⟩
    · rfl
    · rcases so with _ | ⟨sid, live⟩
      · rfl
      · simp only [videoActive] at h
        subst h
        rfl
  · rcases c2 with ⟨st, im, an, er, vid, cv⟩
    rcases vid with _ | ⟨so, w, hh, fr⟩
    · rfl
    · rcases so with _ | ⟨sid, live⟩ <;> rfl

/-- Witness for C7: a concrete streamless controller and a concrete
controller with a live stream. -/
theorem c7_stopCamera_idempotent_witness :
    stopCamera ⟨.idle, none, none, none, none, none⟩ =
      ⟨.idle, none, none, none, none, none⟩ ∧
    stopCamera (stopCamera ⟨.capturing, none, none, none,
        some ⟨some ⟨0, true⟩, 1280, 720, some 1⟩, none⟩) =
      stopCamera ⟨.capturing, none, none, none,
        some ⟨some ⟨0, true⟩, 1280, 720, some 1⟩, none⟩ ∧
    (stopCamera ⟨.capturing, none, none, none,
        some ⟨some ⟨0, true⟩, 1280, 720, some 1⟩, none⟩).state = .capturing ∧
    (stopCamera ⟨.capturing, none, none, none,
        some ⟨some ⟨0, true⟩, 1280, 720, some 1⟩, none⟩).image = none ∧
    (stopCamera ⟨.capturing, none, none, none,
        some ⟨some ⟨0, true⟩, 1280, 720, some 1⟩, none⟩).analysis = none ∧
    (stopCamera ⟨.capturing, none, none, none,
        some ⟨some ⟨0, true⟩, 1280, 720, some 1⟩, none⟩).error = none :=
  c7_stopCamera_idempotent ⟨.idle, none, none, none, none, none⟩
    ⟨.capturing, none, none, none,
      some ⟨some ⟨0, true⟩, 1280, 720, some 1⟩, none⟩ rfl

/-- C8: the transition into the error state (and into the result state)
does not clear the stored captured image — `processAnalysis` preserves it,
and on failure also preserves the stored analysis — while `reset` is what
clears image, analysis and error. -/
theorem c8_no_clear_on_entry (c : Controller) (img : String)
    (net : Except NetError GenResponse) :
    (processAnalysis net img c).1.image = c.image ∧
    ((∃ err, analyzeWaste img net = .error err) →
      (processAnalysis net img c).1.state = .error ∧
      (processAnalysis net img c).1.analysis = c.analysis) ∧
    ((∃ j, analyzeWaste img net = .ok j) →
      (processAnalysis net img c).1.state = .result) ∧
    (reset c).image = none ∧ (reset c).analysis = none ∧
    (reset c).error = none := by
  refine ⟨processAnalysis_fst_image net img c, ?_, ?_, rfl, rfl, rfl⟩
  · rintro ⟨err, herr⟩
    exact ⟨by simp [processAnalysis, herr], by simp [processAnalysis, herr]⟩
  · rintro ⟨j, hj⟩
    simp [processAnalysis, hj]

/-- Witness for C8 at a concrete failing cycle whose controller still
holds the captured image and a stale analysis. -/
theorem c8_no_clear_on_entry_witness :
    (processAnalysis (.error ⟨"down"⟩) "x"
      ⟨.analyzing, some "prev-image", some Json.null, none, none,
        none⟩).1.image = some "prev-image" ∧
    (processAnalysis (.error ⟨"down"⟩) "x"
      ⟨.analyzing, some "prev-image", some Json.null, none, none,
        none⟩).1.state = .error ∧
    (processAnalysis (.error ⟨"down"⟩) "x"
      ⟨.analyzing, some "prev-image", some Json.null, none, none,
        none⟩).1.analysis = some Json.null ∧
    (reset ⟨.analyzing, some "prev-image", some Json.null, none, none,
      none⟩).image = none := by
  have h := c8_no_clear_on_entry
    ⟨.analyzing, some "prev-image", some Json.null, none, none, none⟩ "x"
    (.error ⟨"down"⟩)
  have h2 := h.2.1 ⟨.network ⟨"down"⟩, rfl⟩
  exact ⟨h.1, h2.1, h2.2, h.2.2.2.1⟩

/-- C9: rendering the result card for the analysis with confidences
glass 10, plastic 70, paper 10, cardboard 5, other 5 and main material
"Plastic" shows "Plastic" as the primary detection, each percentage
rounded to the nearest integer, and highlights exactly the plastic bar. -/
theorem c9_render_plastic :
    renderResultCard ⟨"Plastic", ⟨10, 70, 10, 5, 5⟩, "tip", true⟩ =
      ("Plastic",
       [⟨"glass", 10, false, 10⟩, ⟨"plastic", 70, true, 70⟩,
        ⟨"paper", 10, false, 10⟩, ⟨"cardboard", 5, false, 5⟩,
        ⟨"other", 5, false, 5⟩]) ∧
    ((renderResultCard ⟨"Plastic", ⟨10, 70, 10, 5, 5⟩, "tip", true⟩).2.map
      BarRender.highlighted) = [false, true, false, false, false] ∧
    ((renderResultCard ⟨"Plastic", ⟨10, 70, 10, 5, 5⟩, "tip", true⟩).2.map
      BarRender.shownPct) = [10, 70, 10, 5, 5] := by
  refine ⟨?_, ?_, ?_⟩
  · simp only [renderResultCard, confidenceEntries, List.map, jsRound_def]
    norm_num
    refine ⟨by decide, by decide, by decide, by decide, by decide⟩
  · decide
  · simp only [renderResultCard, confidenceEntries, List.map, jsRound_def]
    norm_num

/-- C10: `handleFileUpload` with an empty file selection is a complete
no-op: the controller is unchanged, no state is traversed, and the
classification client is never invoked. -/
theorem c10_empty_selection (net : Except NetError GenResponse)
    (c : Controller) :
    handleFileUpload net [] c = (c, []) ∧
    handleFileUploadTrace net [] c = [] :=
  ⟨rfl, rfl⟩

end EcoScan
